import Mathlib

/-!
Shallow embedding of the AliceTant booking engine
(`repositories/appointment_repository.py`, `repositories/business_repository.py`,
`services/appointment_service.py`, `models/appointment.py`).

Dates and times are abstracted as naturals; `datetime.combine(date, time)`
comparisons are lexicographic on the (date, time) pair.  The database is a
record of row lists; ORM writes become functional state updates, Python
exceptions become `Except` errors.
-/

namespace AliceTant

/-- `models/appointment.py` `AppointmentStatus`: two-variant status enum. -/
inductive AppointmentStatus
  | ACTIVE
  | CANCELLED
  deriving DecidableEq, Repr

/-- `models/provider.py` `Provider`: profile keyed by its one-to-one user id. -/
structure Provider where
  userId : Nat
  username : String
  deriving DecidableEq, Repr

/-- `models/customer.py` `Customer`: profile keyed by its one-to-one user id. -/
structure Customer where
  userId : Nat
  fullName : String
  deriving DecidableEq, Repr

/-- `models/business.py` `Business`: owned by one provider (via the owning
provider profile, itself keyed by its user id). -/
structure Business where
  id : Nat
  providerUserId : Nat
  name : String
  deriving DecidableEq, Repr

/-- `models/appointment.py` `Appointment` row. -/
structure Appointment where
  id : Nat
  businessId : Nat
  appointment_date : Nat
  appointment_time : Nat
  status : AppointmentStatus
  notes : String
  deriving DecidableEq, Repr

/-- `models/appointment.py` `AppointmentCustomer`: the participant join row. -/
structure AppointmentCustomer where
  appointmentId : Nat
  customerId : Nat
  deriving DecidableEq, Repr

/-- The persistent store: one list per table, plus the auto-increment counter
for appointment ids. -/
structure DBState where
  businesses : List Business
  customers : List Customer
  appointments : List Appointment
  appointmentCustomers : List AppointmentCustomer
  nextAppointmentId : Nat
  deriving DecidableEq, Repr

/-- `exceptions/user_exceptions.py`: the exception classes the booking engine
raises. -/
inductive AppError
  | InvalidAppointmentDataError (msg : String)
  | BusinessNotFoundError (msg : String)
  | TimeSlotConflictError (msg : String)
  | UnauthorizedAccessError (msg : String)
  deriving DecidableEq, Repr

/-- The four error kinds of spec section 7. -/
inductive ErrorKind
  | NotFound
  | InvalidInput
  | Unauthorized
  | SlotConflict
  deriving DecidableEq, Repr

/-- Error kind of each exception class, per the HTTP mapping in
`views/appointment_views.py` (404 / 400 / 403 / 409) and spec section 7. -/
def AppError.kind : AppError → ErrorKind
  | .InvalidAppointmentDataError _ => .InvalidInput
  | .BusinessNotFoundError _ => .NotFound
  | .UnauthorizedAccessError _ => .Unauthorized
  | .TimeSlotConflictError _ => .SlotConflict

/-- Error kind of a booking-engine result, `none` on success. -/
def errKind? {α : Type} : Except AppError α → Option ErrorKind
  | .error e => some e.kind
  | .ok _ => none

/-- `datetime.combine(d, t) > datetime.combine(nowD, nowT)`: strict
lexicographic comparison on (date, time). -/
def dtAfter (d t nowD nowT : Nat) : Bool :=
  decide (nowD < d ∨ (nowD = d ∧ nowT < t))

/-- `Business.objects.get(id=business_id)` lookup. -/
def findBusiness (s : DBState) (business_id : Nat) : Option Business :=
  s.businesses.find? fun b => decide (b.id = business_id)

/-- `Customer.objects.get(user_id=customer_id)` lookup. -/
def findCustomer (s : DBState) (customer_id : Nat) : Option Customer :=
  s.customers.find? fun c => decide (c.userId = customer_id)

/-- `Appointment.objects.get(id=appointment_id)` lookup. -/
def findAppointment (s : DBState) (appointment_id : Nat) : Option Appointment :=
  s.appointments.find? fun a => decide (a.id = appointment_id)

/-- `appointment.customers.filter(user_id=...).exists()`: membership in the
participant join table. -/
def isParticipant (s : DBState) (appointmentId customerId : Nat) : Bool :=
  s.appointmentCustomers.any fun link =>
    decide (link.appointmentId = appointmentId ∧ link.customerId = customerId)

/-- `BusinessRepository.get_business_by_id`. -/
def get_business_by_id (s : DBState) (business_id : Nat) : Except AppError Business :=
  match findBusiness s business_id with
  | some b => .ok b
  | none => .error (.BusinessNotFoundError s!"Business with ID {business_id} not found")

/-- `BusinessRepository.verify_ownership`:
`business.provider.user.id == provider.user.id`. -/
def verify_ownership (business : Business) (provider : Provider) : Bool :=
  decide (business.providerUserId = provider.userId)

/-- `AppointmentRepository.check_time_slot_available`: true iff no ACTIVE
appointment row exists for (business, date, time). -/
def check_time_slot_available (s : DBState) (business : Business)
    (d t : Nat) : Bool :=
  !(s.appointments.any fun a =>
      decide (a.businessId = business.id ∧ a.appointment_date = d ∧
        a.appointment_time = t ∧ a.status = AppointmentStatus.ACTIVE))

/-- `AppointmentRepository.create_appointment`, sequential semantics: the
validations in source order, then the transactional write (new appointment
row appended, one participant row per customer). -/
def create_appointment (s : DBState) (business : Business)
    (customers : List Customer) (d t : Nat) (notes : String)
    (nowD nowT : Nat) : Except AppError (DBState × Appointment) :=
  if customers.isEmpty then
    .error (.InvalidAppointmentDataError
      "At least one customer is required for an appointment")
  else if !(dtAfter d t nowD nowT) then
    .error (.InvalidAppointmentDataError
      s!"Appointment date and time must be in the future (got {d} {t})")
  else if !(check_time_slot_available s business d t) then
    let bname := business.name
    .error (.TimeSlotConflictError
      s!"Time slot {d} at {t} is already booked for business {bname}")
  else
    let appointment : Appointment :=
      { id := s.nextAppointmentId, businessId := business.id,
        appointment_date := d, appointment_time := t,
        status := .ACTIVE, notes := notes }
    let links := customers.map fun c =>
      ({ appointmentId := appointment.id, customerId := c.userId } :
        AppointmentCustomer)
    .ok ({ s with
            appointments := s.appointments ++ [appointment],
            appointmentCustomers := s.appointmentCustomers ++ links,
            nextAppointmentId := s.nextAppointmentId + 1 }, appointment)

/-- Substring test on character lists (Python `needle in haystack`),
used by the IntegrityError handler. -/
def startsWithL : List Char → List Char → Bool
  | [], _ => true
  | _ :: _, [] => false
  | a :: as, b :: bs => a = b && startsWithL as bs

/-- Substring occurrence anywhere in the haystack. -/
def occursL (needle : List Char) : List Char → Bool
  | [] => needle.isEmpty
  | c :: rest => startsWithL needle (c :: rest) || occursL needle rest

/-- Python `needle in haystack` on strings. -/
def occursStr (needle hay : String) : Bool :=
  occursL needle.toList hay.toList

/-- The `except IntegrityError` handler inside
`AppointmentRepository.create_appointment` (the commit-race fallback): if the
error message mentions the partial unique index
`unique_active_appointment_slot`, re-signal as `TimeSlotConflictError`,
otherwise as a generic `InvalidAppointmentDataError`. -/
def translateIntegrityError (errMsg : String) (d t : Nat)
    (businessName : String) : AppError :=
  if occursStr "unique_active_appointment_slot" errMsg then
    .TimeSlotConflictError
      s!"Time slot {d} at {t} is already booked for business {businessName}"
  else
    .InvalidAppointmentDataError ("Database integrity error: " ++ errMsg)

/-- `AppointmentRepository.get_appointment_by_id`. -/
def get_appointment_by_id (s : DBState) (appointment_id : Nat) :
    Except AppError Appointment :=
  match findAppointment s appointment_id with
  | some a => .ok a
  | none => .error (.InvalidAppointmentDataError
      s!"Appointment with ID {appointment_id} not found")

/-- Overwrite the status of the first row with the given id to CANCELLED
(the single-row `appointment.save()` after `.get(id=...)`). -/
def setCancelledFirst : List Appointment → Nat → List Appointment
  | [], _ => []
  | a :: rest, i =>
    if a.id = i then { a with status := .CANCELLED } :: rest
    else a :: setCancelledFirst rest i

/-- `AppointmentRepository.cancel_appointment`: soft delete, fetch the row,
reject if already cancelled, otherwise flip the status field only. -/
def cancel_appointment (s : DBState) (appointment_id : Nat) :
    Except AppError (DBState × Appointment) :=
  match findAppointment s appointment_id with
  | none => .error (.InvalidAppointmentDataError
      s!"Appointment with ID {appointment_id} not found")
  | some appointment =>
    if appointment.status = AppointmentStatus.CANCELLED then
      .error (.InvalidAppointmentDataError
        s!"Appointment {appointment_id} is already cancelled")
    else
      .ok ({ s with
              appointments := setCancelledFirst s.appointments appointment_id },
           { appointment with status := .CANCELLED })

/-- Lexicographic (date, time) order used by
`.order_by(appointment_date, appointment_time)`. -/
def dtLe (a b : Appointment) : Bool :=
  decide (a.appointment_date < b.appointment_date ∨
    (a.appointment_date = b.appointment_date ∧
      a.appointment_time ≤ b.appointment_time))

/-- Insertion step of the chronological sort. -/
def insertByDateTime (a : Appointment) : List Appointment → List Appointment
  | [] => [a]
  | b :: rest =>
    if dtLe a b then a :: b :: rest else b :: insertByDateTime a rest

/-- Chronological ordering of a row list (insertion sort by (date, time)). -/
def orderByDateTime : List Appointment → List Appointment
  | [] => []
  | a :: rest => insertByDateTime a (orderByDateTime rest)

/-- `AppointmentRepository.get_appointments_by_customer`: the rows the
customer participates in, ordered by (date, time). -/
def get_appointments_by_customer (s : DBState) (customer : Customer) :
    List Appointment :=
  orderByDateTime
    (s.appointments.filter fun a => isParticipant s a.id customer.userId)

/-- Resolution loop of `AppointmentService.book_appointment`: look up every
customer id in order, failing on the first missing one. -/
def resolveCustomers (s : DBState) : List Nat → Except AppError (List Customer)
  | [] => .ok []
  | cid :: rest =>
    match findCustomer s cid with
    | none => .error (.InvalidAppointmentDataError
        s!"Customer with ID {cid} not found")
    | some c =>
      match resolveCustomers s rest with
      | .ok cs => .ok (c :: cs)
      | .error e => .error e

/-- `AppointmentService.book_appointment`: validations in source order, then
business lookup, customer resolution, and delegation to the repository. -/
def book_appointment (s : DBState) (business_id : Nat)
    (customer_ids : List Nat) (d t : Nat) (notes : String)
    (nowD nowT : Nat) : Except AppError (DBState × Appointment) :=
  if customer_ids.isEmpty then
    .error (.InvalidAppointmentDataError
      "At least one customer is required for an appointment")
  else if !(dtAfter d t nowD nowT) then
    .error (.InvalidAppointmentDataError
      s!"Appointment date and time must be in the future (got {d} {t})")
  else
    match get_business_by_id s business_id with
    | .error e => .error e
    | .ok business =>
      match resolveCustomers s customer_ids with
      | .error e => .error e
      | .ok customers =>
        create_appointment s business customers d t notes nowD nowT

/-- `AppointmentService.cancel_appointment_by_customer`: fetch, participant
authorization, then repository cancellation. -/
def cancel_appointment_by_customer (s : DBState) (appointment_id : Nat)
    (customer : Customer) : Except AppError (DBState × Appointment) :=
  match get_appointment_by_id s appointment_id with
  | .error e => .error e
  | .ok appointment =>
    if !(isParticipant s appointment.id customer.userId) then
      let who := customer.fullName
      .error (.UnauthorizedAccessError
        s!"Customer {who} is not authorized to cancel appointment {appointment_id}")
    else
      cancel_appointment s appointment_id

/-- The business row an appointment points to (`appointment.business`, a
foreign key the database always resolves). -/
def appointmentBusiness (s : DBState) (a : Appointment) : Option Business :=
  s.businesses.find? fun b => decide (b.id = a.businessId)

/-- `AppointmentService.cancel_appointment_by_provider`: fetch, ownership
authorization, then repository cancellation.  The dangling-foreign-key case
(no business row) cannot arise in the source database; it is mapped to the
business-not-found error. -/
def cancel_appointment_by_provider (s : DBState) (appointment_id : Nat)
    (provider : Provider) : Except AppError (DBState × Appointment) :=
  match get_appointment_by_id s appointment_id with
  | .error e => .error e
  | .ok appointment =>
    match appointmentBusiness s appointment with
    | none =>
      let missing := appointment.businessId
      .error (.BusinessNotFoundError
        s!"Business with ID {missing} not found")
    | some business =>
      if !(verify_ownership business provider) then
        let who := provider.username
        .error (.UnauthorizedAccessError
          s!"Provider {who} is not authorized to cancel appointment {appointment_id}")
      else
        cancel_appointment s appointment_id

/-- `Appointment.is_upcoming` evaluated at an explicit current moment:
strictly in the future and still active. -/
def isUpcomingAt (a : Appointment) (nowD nowT : Nat) : Bool :=
  dtAfter a.appointment_date a.appointment_time nowD nowT &&
    decide (a.status = AppointmentStatus.ACTIVE)

/-- The grouped result of `AppointmentService.get_customer_appointments`. -/
structure GroupedAppointments where
  upcoming : List Appointment
  past : List Appointment
  deriving DecidableEq, Repr

/-- `AppointmentService.get_customer_appointments`: partition the customer
rows into upcoming (future and active) and past (everything else), order
preserved, computed against the explicit current moment. -/
def get_customer_appointments (s : DBState) (customer : Customer)
    (nowD nowT : Nat) : GroupedAppointments :=
  let appointments := get_appointments_by_customer s customer
  { upcoming := appointments.filter fun a => isUpcomingAt a nowD nowT,
    past := appointments.filter fun a => !(isUpcomingAt a nowD nowT) }

/-- `AppointmentService.check_time_slot_availability`: resolve the business
(business-not-found error if absent) and delegate to the repository check. -/
def check_time_slot_availability (s : DBState) (business_id : Nat)
    (d t : Nat) : Except AppError Bool :=
  match get_business_by_id s business_id with
  | .error e => .error e
  | .ok business => .ok (check_time_slot_available s business d t)

/-- The mutating operations of the booking engine. -/
inductive Op
  | book (business_id : Nat) (customer_ids : List Nat) (d t : Nat)
      (notes : String) (nowD nowT : Nat)
  | cancelByCustomer (appointment_id : Nat) (customer : Customer)
  | cancelByProvider (appointment_id : Nat) (provider : Provider)

/-- One engine operation against the store; a raised error rolls the
transaction back, leaving the store unchanged. -/
def applyOp (s : DBState) : Op → DBState
  | .book bid cids d t notes nowD nowT =>
    match book_appointment s bid cids d t notes nowD nowT with
    | .ok (s2, _) => s2
    | .error _ => s
  | .cancelByCustomer aid c =>
    match cancel_appointment_by_customer s aid c with
    | .ok (s2, _) => s2
    | .error _ => s
  | .cancelByProvider aid p =>
    match cancel_appointment_by_provider s aid p with
    | .ok (s2, _) => s2
    | .error _ => s

/-- A sequence of engine operations. -/
def applyOps (s : DBState) : List Op → DBState
  | [] => s
  | op :: rest => applyOps (applyOp s op) rest

/-- The active rows occupying a given (business, date, time) slot. -/
def activeFilter (l : List Appointment) (bid d t : Nat) : List Appointment :=
  l.filter fun a => decide (a.businessId = bid ∧ a.appointment_date = d ∧
    a.appointment_time = t ∧ a.status = AppointmentStatus.ACTIVE)

/-- Slot exclusivity: at most one active appointment per slot. -/
def SlotExclusive (s : DBState) : Prop :=
  ∀ bid d t, (activeFilter s.appointments bid d t).length ≤ 1

/-! ### List helper lemmas -/

theorem find?_append_some {α : Type} {p : α → Bool} {l1 : List α} (l2 : List α)
    {a : α} (h : l1.find? p = some a) : (l1 ++ l2).find? p = some a := by
  induction l1 with
  | nil => exact absurd h (by simp)
  | cons b rest ih =>
    by_cases hb : p b = true
    · rw [List.find?_cons_of_pos _ hb] at h
      rw [List.cons_append, List.find?_cons_of_pos _ hb]
      exact h
    · rw [List.find?_cons_of_neg _ hb] at h
      rw [List.cons_append, List.find?_cons_of_neg _ hb]
      exact ih h

theorem find?_append_of_none {α : Type} {p : α → Bool} {l1 : List α}
    (l2 : List α) (h : ∀ x ∈ l1, p x = false) :
    (l1 ++ l2).find? p = l2.find? p := by
  induction l1 with
  | nil => simp
  | cons b rest ih =>
    have hb : p b = false := h b (by simp)
    simp only [List.cons_append, List.find?, hb]
    exact ih fun x hx => h x (by simp [hx])

theorem insertByDateTime_perm (a : Appointment) (l : List Appointment) :
    (insertByDateTime a l).Perm (a :: l) := by
  induction l with
  | nil => simp [insertByDateTime]
  | cons b rest ih =>
    by_cases hb : dtLe a b
    · simp [insertByDateTime, hb]
    · simp only [insertByDateTime, if_neg hb]
      exact (List.Perm.cons b ih).trans (List.Perm.swap a b rest)

theorem orderByDateTime_perm (l : List Appointment) :
    (orderByDateTime l).Perm l := by
  induction l with
  | nil => simp [orderByDateTime]
  | cons a rest ih =>
    exact ((insertByDateTime_perm a (orderByDateTime rest)).trans
      (List.Perm.cons a ih))

theorem mem_orderByDateTime {a : Appointment} {l : List Appointment} :
    a ∈ orderByDateTime l ↔ a ∈ l :=
  (orderByDateTime_perm l).mem_iff

/-! ### Characterization and inversion lemmas for the operations -/

theorem check_time_slot_available_iff (s : DBState) (b : Business) (d t : Nat) :
    check_time_slot_available s b d t = true ↔
      ∀ a ∈ s.appointments, ¬(a.businessId = b.id ∧ a.appointment_date = d ∧
        a.appointment_time = t ∧ a.status = AppointmentStatus.ACTIVE) := by
  unfold check_time_slot_available
  simp

theorem check_iff_activeFilter_nil (s : DBState) (b : Business) (d t : Nat) :
    check_time_slot_available s b d t = true ↔
      activeFilter s.appointments b.id d t = [] := by
  rw [check_time_slot_available_iff]
  unfold activeFilter
  constructor
  · intro h
    rw [List.filter_eq_nil_iff]
    intro a ha
    simpa using h a ha
  · intro h a ha
    have := List.filter_eq_nil_iff.mp h a ha
    simpa using this

theorem create_appointment_ok {s : DBState} {b : Business} {custs : List Customer}
    {d t : Nat} {notes : String} {nowD nowT : Nat} {s2 : DBState} {app : Appointment}
    (h : create_appointment s b custs d t notes nowD nowT = .ok (s2, app)) :
    custs.isEmpty = false ∧ dtAfter d t nowD nowT = true ∧
    check_time_slot_available s b d t = true ∧
    app = { id := s.nextAppointmentId, businessId := b.id, appointment_date := d,
            appointment_time := t, status := .ACTIVE, notes := notes } ∧
    s2.businesses = s.businesses ∧ s2.customers = s.customers ∧
    s2.appointments = s.appointments ++ [app] ∧
    s2.appointmentCustomers = s.appointmentCustomers ++
      custs.map (fun c => { appointmentId := app.id, customerId := c.userId }) ∧
    s2.nextAppointmentId = s.nextAppointmentId + 1 := by
  unfold create_appointment at h
  cases hE : custs.isEmpty with
  | true => rw [hE] at h; exact absurd h (by simp)
  | false =>
    rw [hE] at h
    cases hA : dtAfter d t nowD nowT with
    | false => rw [hA] at h; exact absurd h (by simp)
    | true =>
      rw [hA] at h
      cases hC : check_time_slot_available s b d t with
      | false => rw [hC] at h; exact absurd h (by simp)
      | true =>
        rw [hC] at h
        simp only [Bool.not_true, Bool.false_eq_true, if_false] at h
        rw [Except.ok.injEq, Prod.mk.injEq] at h
        obtain ⟨hs2, happ⟩ := h
        subst hs2; subst happ
        exact ⟨rfl, rfl, rfl, rfl, rfl, rfl, rfl, rfl, rfl⟩

theorem cancel_appointment_ok {s : DBState} {aid : Nat} {s2 : DBState}
    {a2 : Appointment} (h : cancel_appointment s aid = .ok (s2, a2)) :
    ∃ a, findAppointment s aid = some a ∧ a.status = .ACTIVE ∧
      a2 = { a with status := .CANCELLED } ∧
      s2.businesses = s.businesses ∧ s2.customers = s.customers ∧
      s2.appointments = setCancelledFirst s.appointments aid ∧
      s2.appointmentCustomers = s.appointmentCustomers ∧
      s2.nextAppointmentId = s.nextAppointmentId := by
  unfold cancel_appointment at h
  split at h
  · exact absurd h (by simp)
  · rename_i a hfa
    by_cases hst : a.status = AppointmentStatus.CANCELLED
    · rw [if_pos hst] at h; exact absurd h (by simp)
    · rw [if_neg hst] at h
      rw [Except.ok.injEq, Prod.mk.injEq] at h
      obtain ⟨hs2, ha2⟩ := h
      subst hs2; subst ha2
      have hact : a.status = AppointmentStatus.ACTIVE := by
        cases hx : a.status
        · rfl
        · exact absurd hx hst
      exact ⟨a, hfa, hact, rfl, rfl, rfl, rfl, rfl, rfl⟩

theorem get_business_by_id_ok_iff {s : DBState} {bid : Nat} {b : Business} :
    get_business_by_id s bid = .ok b ↔ findBusiness s bid = some b := by
  unfold get_business_by_id
  cases hfb : findBusiness s bid <;> simp

theorem get_appointment_by_id_ok_iff {s : DBState} {aid : Nat}
    {a : Appointment} :
    get_appointment_by_id s aid = .ok a ↔ findAppointment s aid = some a := by
  unfold get_appointment_by_id
  cases hfa : findAppointment s aid <;> simp

theorem book_appointment_ok {s : DBState} {bid : Nat} {cids : List Nat}
    {d t : Nat} {notes : String} {nowD nowT : Nat} {s2 : DBState}
    {app : Appointment}
    (h : book_appointment s bid cids d t notes nowD nowT = .ok (s2, app)) :
    ∃ b custs, findBusiness s bid = some b ∧
      resolveCustomers s cids = .ok custs ∧
      create_appointment s b custs d t notes nowD nowT = .ok (s2, app) := by
  unfold book_appointment at h
  cases hE : cids.isEmpty with
  | true => rw [hE] at h; exact absurd h (by simp)
  | false =>
    rw [hE] at h
    cases hA : dtAfter d t nowD nowT with
    | false => rw [hA] at h; exact absurd h (by simp)
    | true =>
      rw [hA] at h
      simp only [Bool.not_true, Bool.false_eq_true, if_false] at h
      split at h
      · exact absurd h (by simp)
      · rename_i b hgb
        split at h
        · exact absurd h (by simp)
        · rename_i custs hrc
          exact ⟨b, custs, get_business_by_id_ok_iff.mp hgb, hrc, h⟩

theorem cancel_by_customer_ok {s : DBState} {aid : Nat} {c : Customer}
    {s2 : DBState} {a2 : Appointment}
    (h : cancel_appointment_by_customer s aid c = .ok (s2, a2)) :
    cancel_appointment s aid = .ok (s2, a2) := by
  unfold cancel_appointment_by_customer at h
  split at h
  · exact absurd h (by simp)
  · rename_i a hga
    cases hp : isParticipant s a.id c.userId with
    | false => rw [hp] at h; exact absurd h (by simp)
    | true =>
      rw [hp] at h
      simpa using h

theorem cancel_by_provider_ok {s : DBState} {aid : Nat} {p : Provider}
    {s2 : DBState} {a2 : Appointment}
    (h : cancel_appointment_by_provider s aid p = .ok (s2, a2)) :
    cancel_appointment s aid = .ok (s2, a2) := by
  unfold cancel_appointment_by_provider at h
  split at h
  · exact absurd h (by simp)
  · rename_i a hga
    split at h
    · exact absurd h (by simp)
    · rename_i b hab
      cases hv : verify_ownership b p with
      | false => rw [hv] at h; exact absurd h (by simp)
      | true =>
        rw [hv] at h
        simpa using h

theorem activeFilter_cons (a : Appointment) (l : List Appointment)
    (bid d t : Nat) :
    activeFilter (a :: l) bid d t =
      if a.businessId = bid ∧ a.appointment_date = d ∧ a.appointment_time = t ∧
          a.status = AppointmentStatus.ACTIVE then
        a :: activeFilter l bid d t
      else activeFilter l bid d t := by
  unfold activeFilter
  rw [List.filter_cons]
  by_cases hp : a.businessId = bid ∧ a.appointment_date = d ∧
      a.appointment_time = t ∧ a.status = AppointmentStatus.ACTIVE
  · rw [if_pos hp, if_pos (by simpa using hp)]
  · rw [if_neg hp, if_neg (by simpa using hp)]

theorem activeFilter_setCancelledFirst_le (l : List Appointment)
    (i bid d t : Nat) :
    (activeFilter (setCancelledFirst l i) bid d t).length ≤
      (activeFilter l bid d t).length := by
  induction l with
  | nil => simp [setCancelledFirst, activeFilter]
  | cons a rest ih =>
    by_cases hid : a.id = i
    · simp only [setCancelledFirst, if_pos hid]
      rw [activeFilter_cons, activeFilter_cons]
      rw [if_neg (by simp)]
      by_cases hp : a.businessId = bid ∧ a.appointment_date = d ∧
          a.appointment_time = t ∧ a.status = AppointmentStatus.ACTIVE
      · rw [if_pos hp]; exact Nat.le_succ _
      · rw [if_neg hp]
    · simp only [setCancelledFirst, if_neg hid]
      rw [activeFilter_cons, activeFilter_cons]
      by_cases hp : a.businessId = bid ∧ a.appointment_date = d ∧
          a.appointment_time = t ∧ a.status = AppointmentStatus.ACTIVE
      · rw [if_pos hp, if_pos hp]
        simpa using ih
      · rw [if_neg hp, if_neg hp]
        exact ih

theorem slotExclusive_create {s : DBState} {b : Business}
    {custs : List Customer} {d t : Nat} {notes : String} {nowD nowT : Nat}
    {s2 : DBState} {app : Appointment} (hs : SlotExclusive s)
    (h : create_appointment s b custs d t notes nowD nowT = .ok (s2, app)) :
    SlotExclusive s2 := by
  obtain ⟨-, -, hC, happ, -, -, happts, -, -⟩ := create_appointment_ok h
  have hb : app.businessId = b.id := by rw [happ]
  have hd : app.appointment_date = d := by rw [happ]
  have ht : app.appointment_time = t := by rw [happ]
  have hst : app.status = AppointmentStatus.ACTIVE := by rw [happ]
  intro bid' d' t'
  rw [happts]
  have hsplit : activeFilter (s.appointments ++ [app]) bid' d' t' =
      activeFilter s.appointments bid' d' t' ++
      activeFilter [app] bid' d' t' := by
    unfold activeFilter
    rw [List.filter_append]
  rw [hsplit, List.length_append]
  by_cases hp : b.id = bid' ∧ d = d' ∧ t = t'
  · obtain ⟨h1, h2, h3⟩ := hp
    subst h1; subst h2; subst h3
    have hnil : activeFilter s.appointments b.id d t = [] :=
      (check_iff_activeFilter_nil s b d t).mp hC
    rw [hnil]
    have hone : (activeFilter [app] b.id d t).length ≤ 1 := by
      rw [activeFilter_cons, if_pos ⟨hb, hd, ht, hst⟩]
      simp [activeFilter]
    simpa using hone
  · have hone : activeFilter [app] bid' d' t' = [] := by
      rw [activeFilter_cons, if_neg fun hcon => hp
        ⟨by rw [← hb]; exact hcon.1, by rw [← hd]; exact hcon.2.1,
          by rw [← ht]; exact hcon.2.2.1⟩]
      simp [activeFilter]
    rw [hone]
    simpa using hs bid' d' t'

theorem slotExclusive_setCancelled {s s2 : DBState} {aid : Nat}
    (hs : SlotExclusive s)
    (happts : s2.appointments = setCancelledFirst s.appointments aid) :
    SlotExclusive s2 := by
  intro bid d t
  rw [happts]
  exact le_trans (activeFilter_setCancelledFirst_le _ _ _ _ _) (hs bid d t)

theorem slotExclusive_applyOp {s : DBState} (hs : SlotExclusive s) (op : Op) :
    SlotExclusive (applyOp s op) := by
  cases op with
  | book bid cids d t notes nowD nowT =>
    simp only [applyOp]
    split
    · rename_i s2 app hr
      obtain ⟨b, custs, -, -, hcr⟩ := book_appointment_ok hr
      exact slotExclusive_create hs hcr
    · exact hs
  | cancelByCustomer aid c =>
    simp only [applyOp]
    split
    · rename_i s2 a2 hr
      obtain ⟨a, -, -, -, -, -, happts, -, -⟩ :=
        cancel_appointment_ok (cancel_by_customer_ok hr)
      exact slotExclusive_setCancelled hs happts
    · exact hs
  | cancelByProvider aid p =>
    simp only [applyOp]
    split
    · rename_i s2 a2 hr
      obtain ⟨a, -, -, -, -, -, happts, -, -⟩ :=
        cancel_appointment_ok (cancel_by_provider_ok hr)
      exact slotExclusive_setCancelled hs happts
    · exact hs

theorem slotExclusive_applyOps {s : DBState} (hs : SlotExclusive s)
    (ops : List Op) : SlotExclusive (applyOps s ops) := by
  induction ops generalizing s with
  | nil => exact hs
  | cons op rest ih => exact ih (slotExclusive_applyOp hs op)

/-- C1: starting from an empty appointment store, after any sequence of
booking and cancellation operations at most one ACTIVE appointment exists per
(business, date, time) slot; and a slot all of whose appointments are
CANCELLED does not block a new active booking (creation succeeds and yields
an ACTIVE appointment when the other preconditions hold). -/
theorem slot_exclusivity_invariant :
    (∀ (bs : List Business) (cs : List Customer) (n : Nat) (ops : List Op)
        (bid d t : Nat),
      (activeFilter (applyOps
          { businesses := bs, customers := cs, appointments := [],
            appointmentCustomers := [], nextAppointmentId := n } ops).appointments
        bid d t).length ≤ 1) ∧
    (∀ (s : DBState) (b : Business) (custs : List Customer) (d t : Nat)
        (notes : String) (nowD nowT : Nat),
      custs ≠ [] → dtAfter d t nowD nowT = true →
      (∀ a ∈ s.appointments, a.businessId = b.id → a.appointment_date = d →
        a.appointment_time = t → a.status = AppointmentStatus.CANCELLED) →
      ∃ s2 app,
        create_appointment s b custs d t notes nowD nowT = .ok (s2, app) ∧
        app.status = AppointmentStatus.ACTIVE) := by
  constructor
  · intro bs cs n ops bid d t
    have hbase : SlotExclusive
        { businesses := bs, customers := cs, appointments := [],
          appointmentCustomers := [], nextAppointmentId := n } := by
      intro bid' d' t'
      simp [activeFilter]
    exact slotExclusive_applyOps hbase ops bid d t
  · intro s b custs d t notes nowD nowT hne hafter hcanc
    have hE : custs.isEmpty = false := by
      cases custs with
      | nil => exact absurd rfl hne
      | cons c cs => rfl
    have hC : check_time_slot_available s b d t = true := by
      rw [check_time_slot_available_iff]
      intro a ha hcon
      obtain ⟨h1, h2, h3, h4⟩ := hcon
      have := hcanc a ha h1 h2 h3
      rw [this] at h4
      exact absurd h4 (by simp)
    refine ⟨{ s with appointments := s.appointments ++
                       [{ id := s.nextAppointmentId, businessId := b.id,
                          appointment_date := d, appointment_time := t,
                          status := AppointmentStatus.ACTIVE, notes := notes }],
                     appointmentCustomers := s.appointmentCustomers ++
                       custs.map fun c =>
                         { appointmentId := s.nextAppointmentId,
                           customerId := c.userId },
                     nextAppointmentId := s.nextAppointmentId + 1 },
      ({ id := s.nextAppointmentId, businessId := b.id,
         appointment_date := d, appointment_time := t,
         status := AppointmentStatus.ACTIVE,
         notes := notes } : Appointment), ?_, rfl⟩
    unfold create_appointment
    rw [hE, hafter, hC]
    simp

/-! ### Concrete sample data for witness evaluations -/

/-- An empty store. -/
def st0 : DBState :=
  { businesses := [], customers := [], appointments := [],
    appointmentCustomers := [], nextAppointmentId := 1 }

/-- Sample provider owning the sample business. -/
def provP : Provider := { userId := 10, username := "pat" }

/-- Sample provider owning nothing. -/
def provQ : Provider := { userId := 11, username := "quinn" }

/-- Sample customer participating in the sample appointments. -/
def custC : Customer := { userId := 20, fullName := "Casey" }

/-- Sample customer participating in nothing. -/
def custD : Customer := { userId := 21, fullName := "Drew" }

/-- Sample business owned by provider 10. -/
def bizA : Business := { id := 1, providerUserId := 10, name := "Salon" }

/-- A populated store: one business, two customers, one active and one
cancelled appointment, customer 20 participating in both. -/
def stW : DBState :=
  { businesses := [bizA],
    customers := [custC, custD],
    appointments := [{ id := 1, businessId := 1, appointment_date := 100,
                       appointment_time := 9,
                       status := AppointmentStatus.ACTIVE, notes := "" },
                     { id := 2, businessId := 1, appointment_date := 100,
                       appointment_time := 10,
                       status := AppointmentStatus.CANCELLED, notes := "" }],
    appointmentCustomers := [{ appointmentId := 1, customerId := 20 },
                             { appointmentId := 2, customerId := 20 }],
    nextAppointmentId := 3 }

/-! ### C2 -/

/-- C2 (counterexample to the claim as stated): on the empty store, looking
up or cancelling the nonexistent appointment 7 fails with the InvalidInput
error kind (InvalidAppointmentDataError), not the NotFound kind. -/
theorem missing_appointment_not_notfound :
    errKind? (get_appointment_by_id st0 7) = some ErrorKind.InvalidInput ∧
    errKind? (cancel_appointment st0 7) = some ErrorKind.InvalidInput ∧
    errKind? (get_appointment_by_id st0 7) ≠ some ErrorKind.NotFound ∧
    errKind? (cancel_appointment st0 7) ≠ some ErrorKind.NotFound := by
  refine ⟨rfl, rfl, ?_, ?_⟩ <;> decide

/-- C2 (amended): for every appointment id that resolves to no stored
appointment, the get-by-id query and all three cancel operations fail with
the InvalidInput error kind (InvalidAppointmentDataError naming the id) —
not the NotFound kind. -/
theorem missing_appointment_invalid_input (s : DBState) (aid : Nat)
    (c : Customer) (p : Provider) (h : findAppointment s aid = none) :
    get_appointment_by_id s aid = .error (.InvalidAppointmentDataError
      s!"Appointment with ID {aid} not found") ∧
    errKind? (get_appointment_by_id s aid) = some ErrorKind.InvalidInput ∧
    errKind? (cancel_appointment s aid) = some ErrorKind.InvalidInput ∧
    errKind? (cancel_appointment_by_customer s aid c) =
      some ErrorKind.InvalidInput ∧
    errKind? (cancel_appointment_by_provider s aid p) =
      some ErrorKind.InvalidInput := by
  have hga : get_appointment_by_id s aid = .error
      (.InvalidAppointmentDataError
        s!"Appointment with ID {aid} not found") := by
    unfold get_appointment_by_id
    rw [h]
  have hca : cancel_appointment s aid = .error
      (.InvalidAppointmentDataError
        s!"Appointment with ID {aid} not found") := by
    unfold cancel_appointment
    rw [h]
  refine ⟨hga, ?_, ?_, ?_, ?_⟩
  · rw [hga]; rfl
  · rw [hca]; rfl
  · unfold cancel_appointment_by_customer
    rw [hga]
    rfl
  · unfold cancel_appointment_by_provider
    rw [hga]
    rfl

/-- Concrete instance of the amended C2 statement on the empty store. -/
theorem missing_appointment_invalid_input_witness :
    errKind? (cancel_appointment st0 7) = some ErrorKind.InvalidInput :=
  (missing_appointment_invalid_input st0 7 custC provP rfl).2.2.1

/-! ### C5 -/

theorem findAppointment_setCancelledFirst_ne {l : List Appointment}
    {i j : Nat} (hne : j ≠ i) :
    (setCancelledFirst l i).find? (fun x => decide (x.id = j)) =
      l.find? (fun x => decide (x.id = j)) := by
  induction l with
  | nil => rfl
  | cons a rest ih =>
    by_cases hid : a.id = i
    · simp only [setCancelledFirst, if_pos hid]
      have haj : ¬ a.id = j := by
        intro hcon
        exact hne (by rw [← hcon]; exact hid)
      rw [List.find?_cons_of_neg _ (by simpa using haj),
        List.find?_cons_of_neg _ (by simpa using haj)]
    · simp only [setCancelledFirst, if_neg hid]
      by_cases hpj : a.id = j
      · rw [List.find?_cons_of_pos _ (by simpa using hpj),
          List.find?_cons_of_pos _ (by simpa using hpj)]
      · rw [List.find?_cons_of_neg _ (by simpa using hpj),
          List.find?_cons_of_neg _ (by simpa using hpj)]
        exact ih

theorem cancel_appointment_not_ok_of_cancelled {s : DBState} {aid : Nat}
    {a : Appointment} (hfa : findAppointment s aid = some a)
    (hc : a.status = AppointmentStatus.CANCELLED) (s2 : DBState)
    (a2 : Appointment) : ¬ cancel_appointment s aid = .ok (s2, a2) := by
  intro hok
  obtain ⟨a', hfa', hact, -⟩ := cancel_appointment_ok hok
  rw [hfa] at hfa'
  injection hfa' with h2
  rw [← h2] at hact
  rw [hc] at hact
  exact AppointmentStatus.noConfusion hact

theorem applyOp_cancelByCustomer_cancelled {s : DBState} {aid : Nat}
    {a : Appointment} (hfa : findAppointment s aid = some a)
    (hc : a.status = AppointmentStatus.CANCELLED) (c : Customer) :
    applyOp s (.cancelByCustomer aid c) = s := by
  simp only [applyOp]
  split
  · rename_i s2 a2 hr
    exact absurd (cancel_by_customer_ok hr)
      (cancel_appointment_not_ok_of_cancelled hfa hc s2 a2)
  · rfl

theorem applyOp_cancelByProvider_cancelled {s : DBState} {aid : Nat}
    {a : Appointment} (hfa : findAppointment s aid = some a)
    (hc : a.status = AppointmentStatus.CANCELLED) (p : Provider) :
    applyOp s (.cancelByProvider aid p) = s := by
  simp only [applyOp]
  split
  · rename_i s2 a2 hr
    exact absurd (cancel_by_provider_ok hr)
      (cancel_appointment_not_ok_of_cancelled hfa hc s2 a2)
  · rfl

theorem findAppointment_applyOp_cancelled {s : DBState} {aid : Nat}
    {a : Appointment} (op : Op) (hfa : findAppointment s aid = some a)
    (hc : a.status = AppointmentStatus.CANCELLED) :
    findAppointment (applyOp s op) aid = some a := by
  cases op with
  | book bid cids d t notes nowD nowT =>
    simp only [applyOp]
    split
    · rename_i s2 app hr
      obtain ⟨b, custs, -, -, hcr⟩ := book_appointment_ok hr
      obtain ⟨-, -, -, -, -, -, happts, -, -⟩ := create_appointment_ok hcr
      unfold findAppointment at hfa ⊢
      rw [happts]
      exact find?_append_some _ hfa
    · exact hfa
  | cancelByCustomer aid2 c =>
    simp only [applyOp]
    split
    · rename_i s2 a2 hr
      obtain ⟨a', hfa', hact, -, -, -, happts, -, -⟩ :=
        cancel_appointment_ok (cancel_by_customer_ok hr)
      have hne : aid ≠ aid2 := by
        intro he
        subst he
        rw [hfa] at hfa'
        injection hfa' with h2
        rw [← h2] at hact
        rw [hc] at hact
        exact AppointmentStatus.noConfusion hact
      unfold findAppointment at hfa ⊢
      rw [happts, findAppointment_setCancelledFirst_ne hne]
      exact hfa
    · exact hfa
  | cancelByProvider aid2 p =>
    simp only [applyOp]
    split
    · rename_i s2 a2 hr
      obtain ⟨a', hfa', hact, -, -, -, happts, -, -⟩ :=
        cancel_appointment_ok (cancel_by_provider_ok hr)
      have hne : aid ≠ aid2 := by
        intro he
        subst he
        rw [hfa] at hfa'
        injection hfa' with h2
        rw [← h2] at hact
        rw [hc] at hact
        exact AppointmentStatus.noConfusion hact
      unfold findAppointment at hfa ⊢
      rw [happts, findAppointment_setCancelledFirst_ne hne]
      exact hfa
    · exact hfa

theorem findAppointment_applyOps_cancelled {s : DBState} {aid : Nat}
    {a : Appointment} (ops : List Op) (hfa : findAppointment s aid = some a)
    (hc : a.status = AppointmentStatus.CANCELLED) :
    findAppointment (applyOps s ops) aid = some a := by
  induction ops generalizing s with
  | nil => exact hfa
  | cons op rest ih =>
    exact ih (findAppointment_applyOp_cancelled op hfa hc)

/-- C5: cancellation is not idempotent and the status machine has exactly
one transition.  Repository cancellation of an already-CANCELLED row fails
with InvalidInput ("already cancelled") and the cancel operations leave the
store unchanged there; a successful cancellation starts from ACTIVE and ends
CANCELLED; and no sequence of engine operations moves a row out of
CANCELLED. -/
theorem cancellation_state_machine :
    (∀ (s : DBState) (aid : Nat) (a : Appointment),
      findAppointment s aid = some a →
      a.status = AppointmentStatus.CANCELLED →
      cancel_appointment s aid = .error (.InvalidAppointmentDataError
        s!"Appointment {aid} is already cancelled") ∧
      (∀ c, applyOp s (.cancelByCustomer aid c) = s) ∧
      (∀ p, applyOp s (.cancelByProvider aid p) = s)) ∧
    (∀ (s : DBState) (aid : Nat) (s2 : DBState) (a2 : Appointment),
      cancel_appointment s aid = .ok (s2, a2) →
      ∃ a, findAppointment s aid = some a ∧
        a.status = AppointmentStatus.ACTIVE ∧
        a2.status = AppointmentStatus.CANCELLED) ∧
    (∀ (s : DBState) (ops : List Op) (aid : Nat) (a : Appointment),
      findAppointment s aid = some a →
      a.status = AppointmentStatus.CANCELLED →
      findAppointment (applyOps s ops) aid = some a) := by
  refine ⟨?_, ?_, ?_⟩
  · intro s aid a hfa hc
    refine ⟨?_, fun c => applyOp_cancelByCustomer_cancelled hfa hc c,
      fun p => applyOp_cancelByProvider_cancelled hfa hc p⟩
    unfold cancel_appointment
    simp only [hfa]
    rw [if_pos hc]
  · intro s aid s2 a2 h
    obtain ⟨a, hfa, hact, ha2, -⟩ := cancel_appointment_ok h
    exact ⟨a, hfa, hact, by rw [ha2]⟩
  · intro s ops aid a hfa hc
    exact findAppointment_applyOps_cancelled ops hfa hc

/-- Concrete instance of C5 on the populated store: re-cancelling the
already-cancelled appointment 2 fails and changes nothing. -/
theorem cancellation_state_machine_witness :
    errKind? (cancel_appointment stW 2) = some ErrorKind.InvalidInput ∧
    applyOp stW (.cancelByCustomer 2 custC) = stW := by
  have h := cancellation_state_machine.1 stW 2
    { id := 2, businessId := 1, appointment_date := 100,
      appointment_time := 10, status := AppointmentStatus.CANCELLED,
      notes := "" } rfl rfl
  exact ⟨by rw [h.1]; rfl, h.2.1 custC⟩

/-! ### C6 -/

theorem findAppointment_id {s : DBState} {aid : Nat} {a : Appointment}
    (hfa : findAppointment s aid = some a) : a.id = aid := by
  unfold findAppointment at hfa
  have := List.find?_some hfa
  simpa using this

/-- C6: authorization symmetry for cancellation.  Cancel-by-customer fails
with the Unauthorized kind when the acting customer is not among the
appointment participants; cancel-by-provider fails with the Unauthorized
kind when the acting provider does not own the appointment's business
(identity comparison of the owning provider's user id); in both cases the
store is unchanged. -/
theorem cancellation_authorization_symmetry :
    (∀ (s : DBState) (aid : Nat) (c : Customer) (a : Appointment),
      findAppointment s aid = some a →
      isParticipant s aid c.userId = false →
      errKind? (cancel_appointment_by_customer s aid c) =
        some ErrorKind.Unauthorized ∧
      applyOp s (.cancelByCustomer aid c) = s) ∧
    (∀ (s : DBState) (aid : Nat) (p : Provider) (a : Appointment)
        (b : Business),
      findAppointment s aid = some a →
      appointmentBusiness s a = some b →
      verify_ownership b p = false →
      errKind? (cancel_appointment_by_provider s aid p) =
        some ErrorKind.Unauthorized ∧
      applyOp s (.cancelByProvider aid p) = s) := by
  constructor
  · intro s aid c a hfa hpart
    have hga : get_appointment_by_id s aid = .ok a :=
      get_appointment_by_id_ok_iff.mpr hfa
    have hid : a.id = aid := findAppointment_id hfa
    refine ⟨?_, ?_⟩
    · unfold cancel_appointment_by_customer
      simp only [hga]
      rw [hid, hpart]
      rfl
    · simp only [applyOp]
      split
      · rename_i s2 a2 hr
        unfold cancel_appointment_by_customer at hr
        simp only [hga] at hr
        rw [hid, hpart] at hr
        exact absurd hr (by simp)
      · rfl
  · intro s aid p a b hfa hab hv
    have hga : get_appointment_by_id s aid = .ok a :=
      get_appointment_by_id_ok_iff.mpr hfa
    refine ⟨?_, ?_⟩
    · unfold cancel_appointment_by_provider
      simp only [hga, hab]
      rw [hv]
      rfl
    · simp only [applyOp]
      split
      · rename_i s2 a2 hr
        unfold cancel_appointment_by_provider at hr
        simp only [hga, hab] at hr
        rw [hv] at hr
        exact absurd hr (by simp)
      · rfl

/-- Concrete instance of C6 on the populated store: a non-participant
customer and a non-owning provider are both rejected. -/
theorem cancellation_authorization_symmetry_witness :
    errKind? (cancel_appointment_by_customer stW 1 custD) =
      some ErrorKind.Unauthorized ∧
    errKind? (cancel_appointment_by_provider stW 1 provQ) =
      some ErrorKind.Unauthorized :=
  ⟨(cancellation_authorization_symmetry.1 stW 1 custD
      { id := 1, businessId := 1, appointment_date := 100,
        appointment_time := 9, status := AppointmentStatus.ACTIVE,
        notes := "" } rfl rfl).1,
   (cancellation_authorization_symmetry.2 stW 1 provQ
      { id := 1, businessId := 1, appointment_date := 100,
        appointment_time := 9, status := AppointmentStatus.ACTIVE,
        notes := "" } bizA rfl rfl rfl).1⟩

/-! ### C7 -/

theorem setCancelledFirst_decomp {l : List Appointment} {i : Nat}
    {a : Appointment} (h : l.find? (fun x => decide (x.id = i)) = some a) :
    ∃ pre post, l = pre ++ a :: post ∧ (∀ x ∈ pre, x.id ≠ i) ∧
      setCancelledFirst l i =
        pre ++ ({ a with status := AppointmentStatus.CANCELLED }) :: post := by
  induction l with
  | nil => exact absurd h (by simp)
  | cons b rest ih =>
    by_cases hb : b.id = i
    · rw [List.find?_cons_of_pos _ (by simpa using hb)] at h
      injection h with h2
      subst h2
      exact ⟨[], rest, rfl, by simp, by simp [setCancelledFirst, hb]⟩
    · rw [List.find?_cons_of_neg _ (by simpa using hb)] at h
      obtain ⟨pre, post, hl, hpre, hset⟩ := ih h
      refine ⟨b :: pre, post, by rw [List.cons_append, ← hl], ?_, ?_⟩
      · intro x hx
        rcases List.mem_cons.mp hx with hx1 | hx2
        · rw [hx1]; exact hb
        · exact hpre x hx2
      · simp only [setCancelledFirst, if_neg hb]
        rw [hset, List.cons_append]

/-- C7: cancellation is a soft delete framing everything except the status
field: the row still exists at the same position, is retrievable by id with
status CANCELLED, its business, date, time, notes and id are unchanged, all
other appointment rows are untouched, and no appointment or participant row
is deleted. -/
theorem cancellation_soft_delete_frame (s : DBState) (aid : Nat)
    (s2 : DBState) (a2 : Appointment)
    (h : cancel_appointment s aid = .ok (s2, a2)) :
    ∃ a pre post,
      findAppointment s aid = some a ∧
      s.appointments = pre ++ a :: post ∧
      s2.appointments = pre ++ a2 :: post ∧
      a2 = { a with status := AppointmentStatus.CANCELLED } ∧
      a2.id = a.id ∧ a2.businessId = a.businessId ∧
      a2.appointment_date = a.appointment_date ∧
      a2.appointment_time = a.appointment_time ∧ a2.notes = a.notes ∧
      a2.status = AppointmentStatus.CANCELLED ∧
      s2.appointmentCustomers = s.appointmentCustomers ∧
      s2.businesses = s.businesses ∧ s2.customers = s.customers ∧
      s2.appointments.length = s.appointments.length ∧
      get_appointment_by_id s2 aid = .ok a2 := by
  obtain ⟨a, hfa, hact, ha2, hbs, hcs, happts, hac, -⟩ :=
    cancel_appointment_ok h
  have hfind : s.appointments.find? (fun x => decide (x.id = aid)) = some a :=
    hfa
  obtain ⟨pre, post, hl, hpre, hset⟩ := setCancelledFirst_decomp hfind
  have hid : a.id = aid := findAppointment_id hfa
  refine ⟨a, pre, post, hfa, hl, ?_, ha2, by rw [ha2], by rw [ha2],
    by rw [ha2], by rw [ha2], by rw [ha2], by rw [ha2], hac, hbs, hcs,
    ?_, ?_⟩
  · rw [happts, hset, ha2]
  · rw [happts, hset, hl]
    simp
  · rw [get_appointment_by_id_ok_iff]
    unfold findAppointment
    rw [happts, hset]
    rw [find?_append_of_none _ (fun x hx => by simpa using hpre x hx)]
    rw [List.find?_cons_of_pos _ (by simp [hid])]
    rw [ha2]

/-- The populated store after cancelling appointment 1. -/
def stWcancelled : DBState :=
  { businesses := [bizA],
    customers := [custC, custD],
    appointments := [{ id := 1, businessId := 1, appointment_date := 100,
                       appointment_time := 9,
                       status := AppointmentStatus.CANCELLED, notes := "" },
                     { id := 2, businessId := 1, appointment_date := 100,
                       appointment_time := 10,
                       status := AppointmentStatus.CANCELLED, notes := "" }],
    appointmentCustomers := [{ appointmentId := 1, customerId := 20 },
                             { appointmentId := 2, customerId := 20 }],
    nextAppointmentId := 3 }

/-- Concrete instance of C7: after cancelling appointment 1 in the populated
store, the row is still retrievable with status CANCELLED. -/
theorem cancellation_soft_delete_frame_witness :
    get_appointment_by_id stWcancelled 1 = .ok
      { id := 1, businessId := 1, appointment_date := 100,
        appointment_time := 9, status := AppointmentStatus.CANCELLED,
        notes := "" } := by
  have h := cancellation_soft_delete_frame stW 1 stWcancelled
    { id := 1, businessId := 1, appointment_date := 100,
      appointment_time := 9, status := AppointmentStatus.CANCELLED,
      notes := "" } rfl
  obtain ⟨a, pre, post, -, -, -, -, -, -, -, -, -, -, -, -, -, -, hget⟩ := h
  exact hget

/-! ### C4 -/

/-- C4: the commit-time IntegrityError handler re-signals the violation as
the SlotConflict kind exactly when the error message mentions the partial
unique index name unique_active_appointment_slot; any other integrity error
becomes a generic InvalidInput write failure, never SlotConflict. -/
theorem integrity_error_slot_conflict (msg : String) (d t : Nat)
    (bname : String) :
    ((translateIntegrityError msg d t bname).kind = ErrorKind.SlotConflict ↔
      occursStr "unique_active_appointment_slot" msg = true) ∧
    (occursStr "unique_active_appointment_slot" msg = false →
      translateIntegrityError msg d t bname =
        .InvalidAppointmentDataError ("Database integrity error: " ++ msg)) := by
  constructor
  · constructor
    · intro hk
      by_cases h : occursStr "unique_active_appointment_slot" msg = true
      · exact h
      · unfold translateIntegrityError at hk
        rw [if_neg h] at hk
        exact absurd hk (by simp [AppError.kind])
    · intro ho
      unfold translateIntegrityError
      rw [if_pos ho]
      rfl
  · intro ho
    unfold translateIntegrityError
    rw [if_neg (by simp [ho])]

/-- Concrete instance of C4: a message naming the partial unique index is
re-signalled as SlotConflict. -/
theorem integrity_error_slot_conflict_witness :
    (translateIntegrityError
      "duplicate key violates unique_active_appointment_slot" 100 9
      "Salon").kind = ErrorKind.SlotConflict :=
  (integrity_error_slot_conflict
    "duplicate key violates unique_active_appointment_slot" 100 9
    "Salon").1.mpr (by decide)

/-! ### C9 -/

/-- C9: the repository slot-availability check is true iff no ACTIVE
appointment occupies (business, date, time); the service-level check, when
the business resolves, returns exactly that boolean.  Both are pure reads:
they return no updated store. -/
theorem slot_availability_check (s : DBState) (b : Business) (d t : Nat)
    (bid : Nat) :
    (check_time_slot_available s b d t = true ↔
      ∀ a ∈ s.appointments, ¬(a.businessId = b.id ∧ a.appointment_date = d ∧
        a.appointment_time = t ∧ a.status = AppointmentStatus.ACTIVE)) ∧
    (findBusiness s bid = some b →
      check_time_slot_availability s bid d t =
        .ok (check_time_slot_available s b d t)) := by
  refine ⟨check_time_slot_available_iff s b d t, ?_⟩
  intro hfb
  have hgb : get_business_by_id s bid = .ok b :=
    get_business_by_id_ok_iff.mpr hfb
  unfold check_time_slot_availability
  simp only [hgb]

/-- Concrete instance of C9: the occupied sample slot reads unavailable and
a free one reads available. -/
theorem slot_availability_check_witness :
    check_time_slot_availability stW 1 100 9 = .ok false ∧
    check_time_slot_availability stW 1 100 11 = .ok true := by
  constructor
  · rw [(slot_availability_check stW bizA 100 9 1).2 rfl]
    rfl
  · rw [(slot_availability_check stW bizA 100 11 1).2 rfl]
    rfl

/-! ### C10 -/

/-- C10: the service-level slot-availability check does not return a boolean
for a nonexistent business: it fails with the NotFound kind
(BusinessNotFoundError). -/
theorem slot_availability_missing_business (s : DBState) (bid : Nat)
    (d t : Nat) (h : findBusiness s bid = none) :
    check_time_slot_availability s bid d t =
      .error (.BusinessNotFoundError s!"Business with ID {bid} not found") ∧
    errKind? (check_time_slot_availability s bid d t) =
      some ErrorKind.NotFound := by
  have hgb : get_business_by_id s bid = .error (.BusinessNotFoundError
      s!"Business with ID {bid} not found") := by
    unfold get_business_by_id
    rw [h]
  constructor
  · unfold check_time_slot_availability
    simp only [hgb]
  · unfold check_time_slot_availability
    simp only [hgb]
    rfl

/-- Concrete instance of C10 on the populated store: business 99 does not
exist, so the check fails with NotFound. -/
theorem slot_availability_missing_business_witness :
    errKind? (check_time_slot_availability stW 99 100 9) =
      some ErrorKind.NotFound :=
  (slot_availability_missing_business stW 99 100 9 rfl).2

/-! ### C8 -/

theorem isUpcomingAt_iff (a : Appointment) (nowD nowT : Nat) :
    isUpcomingAt a nowD nowT = true ↔
      a.status = AppointmentStatus.ACTIVE ∧
      dtAfter a.appointment_date a.appointment_time nowD nowT = true := by
  unfold isUpcomingAt
  rw [Bool.and_eq_true, decide_eq_true_eq]
  exact and_comm

/-- C8: the grouped customer view is a pure partition computed against the
explicit current moment.  Upcoming contains exactly the customer rows that
are ACTIVE and strictly in the future, past contains exactly the rest, the
two lists are disjoint, their concatenation is a permutation of the
customer's full appointment list, and that list consists exactly of the
stored rows the customer participates in.  The view returns no updated
store. -/
theorem customer_appointments_partition (s : DBState) (c : Customer)
    (nowD nowT : Nat) :
    (∀ a, a ∈ (get_customer_appointments s c nowD nowT).upcoming ↔
      (a ∈ get_appointments_by_customer s c ∧
        a.status = AppointmentStatus.ACTIVE ∧
        dtAfter a.appointment_date a.appointment_time nowD nowT = true)) ∧
    (∀ a, a ∈ (get_customer_appointments s c nowD nowT).past ↔
      (a ∈ get_appointments_by_customer s c ∧
        ¬(a.status = AppointmentStatus.ACTIVE ∧
          dtAfter a.appointment_date a.appointment_time nowD nowT = true))) ∧
    (∀ a, ¬(a ∈ (get_customer_appointments s c nowD nowT).upcoming ∧
        a ∈ (get_customer_appointments s c nowD nowT).past)) ∧
    ((get_customer_appointments s c nowD nowT).upcoming ++
      (get_customer_appointments s c nowD nowT).past).Perm
      (get_appointments_by_customer s c) ∧
    (∀ a, a ∈ get_appointments_by_customer s c ↔
      (a ∈ s.appointments ∧ isParticipant s a.id c.userId = true)) := by
  have hmemup : ∀ a, a ∈ (get_customer_appointments s c nowD nowT).upcoming ↔
      a ∈ get_appointments_by_customer s c ∧
      isUpcomingAt a nowD nowT = true := by
    intro a
    unfold get_customer_appointments
    exact List.mem_filter
  have hmempast : ∀ a, a ∈ (get_customer_appointments s c nowD nowT).past ↔
      a ∈ get_appointments_by_customer s c ∧
      (!isUpcomingAt a nowD nowT) = true := by
    intro a
    unfold get_customer_appointments
    exact List.mem_filter
  refine ⟨?_, ?_, ?_, ?_, ?_⟩
  · intro a
    rw [hmemup a, isUpcomingAt_iff]
  · intro a
    rw [hmempast a, Bool.not_eq_true', Bool.eq_false_iff]
    constructor
    · rintro ⟨h1, h2⟩
      exact ⟨h1, fun hcon => h2 ((isUpcomingAt_iff a nowD nowT).mpr hcon)⟩
    · rintro ⟨h1, h2⟩
      exact ⟨h1, fun hcon => h2 ((isUpcomingAt_iff a nowD nowT).mp hcon)⟩
  · intro a hboth
    have h1 := ((hmemup a).mp hboth.1).2
    have h2 := ((hmempast a).mp hboth.2).2
    rw [h1] at h2
    exact absurd h2 (by simp)
  · unfold get_customer_appointments
    exact List.filter_append_perm _ _
  · intro a
    unfold get_appointments_by_customer
    rw [mem_orderByDateTime, List.mem_filter]

/-- Concrete instance of C8: at the sample moment, the active future
appointment is in the upcoming group and the cancelled one in past. -/
theorem customer_appointments_partition_witness :
    ({ id := 1, businessId := 1, appointment_date := 100,
       appointment_time := 9, status := AppointmentStatus.ACTIVE,
       notes := "" } : Appointment) ∈
      (get_customer_appointments stW custC 100 8).upcoming ∧
    ({ id := 2, businessId := 1, appointment_date := 100,
       appointment_time := 10, status := AppointmentStatus.CANCELLED,
       notes := "" } : Appointment) ∈
      (get_customer_appointments stW custC 100 8).past :=
  ⟨((customer_appointments_partition stW custC 100 8).1 _).mpr (by decide),
   ((customer_appointments_partition stW custC 100 8).2.1 _).mpr (by decide)⟩

/-! ### C3 -/

theorem resolveCustomers_append_missing (s : DBState) (pre : List Nat)
    (cid : Nat) (rest : List Nat)
    (hpre : ∀ x ∈ pre, (findCustomer s x).isSome = true)
    (hc : findCustomer s cid = none) :
    resolveCustomers s (pre ++ cid :: rest) =
      .error (.InvalidAppointmentDataError
        s!"Customer with ID {cid} not found") := by
  induction pre with
  | nil =>
    simp only [List.nil_append]
    unfold resolveCustomers
    rw [hc]
  | cons x pre' ih =>
    have hx : (findCustomer s x).isSome = true := hpre x (by simp)
    obtain ⟨cx, hcx⟩ := Option.isSome_iff_exists.mp hx
    have htail := ih (fun y hy => hpre y (by simp [hy]))
    simp only [List.cons_append]
    unfold resolveCustomers
    simp only [hcx, htail]

theorem resolveCustomers_ok (s : DBState) (cids : List Nat)
    (h : ∀ x ∈ cids, (findCustomer s x).isSome = true) :
    ∃ cs, resolveCustomers s cids = .ok cs ∧
      cs.map (fun c => c.userId) = cids := by
  induction cids with
  | nil => exact ⟨[], rfl, rfl⟩
  | cons cid rest ih =>
    have hx := h cid (by simp)
    obtain ⟨c, hc⟩ := Option.isSome_iff_exists.mp hx
    obtain ⟨cs, hcs, hmap⟩ := ih (fun y hy => h y (by simp [hy]))
    refine ⟨c :: cs, ?_, ?_⟩
    · unfold resolveCustomers
      simp only [hc, hcs]
    · have hcid : c.userId = cid := by
        unfold findCustomer at hc
        have := List.find?_some hc
        simpa using this
      simp [hmap, hcid]

theorem isEmpty_false_of_ne_nil {α : Type} {l : List α} (h : l ≠ []) :
    l.isEmpty = false := by
  cases l with
  | nil => exact absurd rfl h
  | cons x xs => rfl

/-- C3: the five creation preconditions are checked in order with fail-fast
semantics.  An empty customer list yields the customer-required InvalidInput
error; otherwise a (date, time) not strictly after the current moment yields
the must-be-future InvalidInput error; otherwise a nonexistent business
yields the NotFound error; otherwise the first customer id with no profile
yields an InvalidInput error naming that id; otherwise an occupied active
slot yields SlotConflict; only when all pass is the appointment created
ACTIVE with one participant row per customer. -/
theorem book_appointment_precondition_order (s : DBState) (bid : Nat)
    (cids : List Nat) (d t : Nat) (notes : String) (nowD nowT : Nat) :
    (cids = [] →
      book_appointment s bid cids d t notes nowD nowT =
        .error (.InvalidAppointmentDataError
          "At least one customer is required for an appointment")) ∧
    (cids ≠ [] → dtAfter d t nowD nowT = false →
      book_appointment s bid cids d t notes nowD nowT =
        .error (.InvalidAppointmentDataError
          s!"Appointment date and time must be in the future (got {d} {t})")) ∧
    (cids ≠ [] → dtAfter d t nowD nowT = true → findBusiness s bid = none →
      book_appointment s bid cids d t notes nowD nowT =
        .error (.BusinessNotFoundError
          s!"Business with ID {bid} not found")) ∧
    (∀ b pre cid rest, cids = pre ++ cid :: rest →
      dtAfter d t nowD nowT = true → findBusiness s bid = some b →
      (∀ x ∈ pre, (findCustomer s x).isSome = true) →
      findCustomer s cid = none →
      book_appointment s bid cids d t notes nowD nowT =
        .error (.InvalidAppointmentDataError
          s!"Customer with ID {cid} not found")) ∧
    (∀ b, cids ≠ [] → dtAfter d t nowD nowT = true →
      findBusiness s bid = some b →
      (∀ x ∈ cids, (findCustomer s x).isSome = true) →
      check_time_slot_available s b d t = false →
      errKind? (book_appointment s bid cids d t notes nowD nowT) =
        some ErrorKind.SlotConflict) ∧
    (∀ b, cids ≠ [] → dtAfter d t nowD nowT = true →
      findBusiness s bid = some b →
      (∀ x ∈ cids, (findCustomer s x).isSome = true) →
      check_time_slot_available s b d t = true →
      ∃ s2 app,
        book_appointment s bid cids d t notes nowD nowT = .ok (s2, app) ∧
        app.status = AppointmentStatus.ACTIVE ∧ app.businessId = b.id ∧
        app.appointment_date = d ∧ app.appointment_time = t ∧
        app.notes = notes ∧
        s2.appointments = s.appointments ++ [app] ∧
        s2.appointmentCustomers = s.appointmentCustomers ++
          cids.map (fun x => { appointmentId := app.id, customerId := x })) := by
  refine ⟨?_, ?_, ?_, ?_, ?_, ?_⟩
  · intro h
    subst h
    rfl
  · intro hne hA
    have hE := isEmpty_false_of_ne_nil hne
    unfold book_appointment
    rw [hE, hA]
    rfl
  · intro hne hA hfb
    have hE := isEmpty_false_of_ne_nil hne
    have hgb : get_business_by_id s bid = .error (.BusinessNotFoundError
        s!"Business with ID {bid} not found") := by
      unfold get_business_by_id
      rw [hfb]
    unfold book_appointment
    rw [hE, hA]
    simp only [hgb]
    rfl
  · intro b pre cid rest hcids hA hfb hpre hc
    have hne : cids ≠ [] := by
      rw [hcids]
      simp
    have hE := isEmpty_false_of_ne_nil hne
    have hgb : get_business_by_id s bid = .ok b :=
      get_business_by_id_ok_iff.mpr hfb
    have hrc := resolveCustomers_append_missing s pre cid rest hpre hc
    rw [← hcids] at hrc
    unfold book_appointment
    rw [hE, hA]
    simp only [hgb, hrc]
    rfl
  · intro b hne hA hfb hcust hC
    have hE := isEmpty_false_of_ne_nil hne
    have hgb : get_business_by_id s bid = .ok b :=
      get_business_by_id_ok_iff.mpr hfb
    obtain ⟨cs, hcs, hmap⟩ := resolveCustomers_ok s cids hcust
    have hcsne : cs ≠ [] := by
      intro hnil
      rw [hnil] at hmap
      exact hne (by simpa using hmap.symm)
    have hcsE := isEmpty_false_of_ne_nil hcsne
    unfold book_appointment
    rw [hE, hA]
    simp only [hgb, hcs]
    unfold create_appointment
    rw [hcsE, hA, hC]
    rfl
  · intro b hne hA hfb hcust hC
    have hE := isEmpty_false_of_ne_nil hne
    have hgb : get_business_by_id s bid = .ok b :=
      get_business_by_id_ok_iff.mpr hfb
    obtain ⟨cs, hcs, hmap⟩ := resolveCustomers_ok s cids hcust
    have hcsne : cs ≠ [] := by
      intro hnil
      rw [hnil] at hmap
      exact hne (by simpa using hmap.symm)
    have hcsE := isEmpty_false_of_ne_nil hcsne
    have hlinks : cs.map (fun cu =>
        ({ appointmentId := s.nextAppointmentId,
           customerId := cu.userId } : AppointmentCustomer)) =
        cids.map (fun x => { appointmentId := s.nextAppointmentId,
                             customerId := x }) := by
      rw [← hmap, List.map_map]
      rfl
    refine ⟨{ s with
              appointments := s.appointments ++
                [{ id := s.nextAppointmentId, businessId := b.id,
                   appointment_date := d, appointment_time := t,
                   status := AppointmentStatus.ACTIVE, notes := notes }],
              appointmentCustomers := s.appointmentCustomers ++
                cs.map fun cu =>
                  { appointmentId := s.nextAppointmentId,
                    customerId := cu.userId },
              nextAppointmentId := s.nextAppointmentId + 1 },
      { id := s.nextAppointmentId, businessId := b.id, appointment_date := d,
        appointment_time := t, status := AppointmentStatus.ACTIVE,
        notes := notes }, ?_, rfl, rfl, rfl, rfl, rfl, rfl, ?_⟩
    · unfold book_appointment
      rw [hE, hA]
      simp only [hgb, hcs]
      unfold create_appointment
      rw [hcsE, hA, hC]
      rfl
    · simp only
      rw [hlinks]

/-- Concrete instance of C3: the empty-customer rejection and the
slot-conflict rejection on the populated store. -/
theorem book_appointment_precondition_order_witness :
    book_appointment stW 1 [] 200 9 "" 100 8 =
      .error (.InvalidAppointmentDataError
        "At least one customer is required for an appointment") ∧
    errKind? (book_appointment stW 1 [20] 100 9 "" 100 8) =
      some ErrorKind.SlotConflict :=
  ⟨(book_appointment_precondition_order stW 1 [] 200 9 "" 100 8).1 rfl,
   (book_appointment_precondition_order stW 1 [20] 100 9 "" 100 8).2.2.2.2.1
     bizA (by decide) rfl rfl (by decide) rfl⟩

/-- Concrete instance of C1: booking the same slot twice from an empty
store leaves at most one active row there, and a slot holding only
cancelled rows accepts a fresh active booking. -/
theorem slot_exclusivity_invariant_witness :
    (activeFilter (applyOps
        { businesses := [bizA], customers := [custC, custD],
          appointments := [], appointmentCustomers := [],
          nextAppointmentId := 1 }
        [.book 1 [20] 100 9 "" 50 0,
         .book 1 [21] 100 9 "" 50 0]).appointments 1 100 9).length ≤ 1 ∧
    (∃ s2 app,
      create_appointment stWcancelled bizA [custC] 100 10 "" 100 8 =
        .ok (s2, app) ∧ app.status = AppointmentStatus.ACTIVE) :=
  ⟨slot_exclusivity_invariant.1 [bizA] [custC, custD] 1
     [.book 1 [20] 100 9 "" 50 0, .book 1 [21] 100 9 "" 50 0] 1 100 9,
   slot_exclusivity_invariant.2 stWcancelled bizA [custC] 100 10 "" 100 8
     (by decide) rfl (by decide)⟩

end AliceTant
